import Mathlib

/-!
# Verification of the Cloudera Copilot repository

Shallow embedding of the chat websocket handler (`jupyter_ai/handlers.py`),
the Cloudera AI inference provider
(`cloudera_ai_inference_package/cloudera_ai_inference_provider.py`), the
embedding provider (`cloudera_ai_embedding_provider.py`), the auth helper
(`auth.py`) and model discovery (`model_discovery.py`).

Python JSON values are modelled by the inductive `Json` below; Python
exceptions raised by an operation are modelled by `Except Unit` (or, where a
function can only fall off the end returning `None`, by `Option`).  File
system access and HTTP traffic are passed in as explicit parameters (a
`String → Option Json` oracle for files, a parsed response value or a list
of body lines for HTTP), so the request/response shaping code itself is
embedded faithfully.
-/

/-- Model of a Python/JSON value.  Numbers are modelled by `Int` (none of the
embedded code does arithmetic on JSON numbers; they only flow through or act
as indices, which are ints in every relevant claim). -/
inductive Json where
  | null : Json
  | bool (b : Bool) : Json
  | num (n : Int) : Json
  | str (s : String) : Json
  | arr (elems : List Json) : Json
  | obj (fields : List (String × Json)) : Json

/-- Structural equality on `Json` values (Python `==` on the corresponding
values). -/
def Json.beq : Json → Json → Bool
  | .null, .null => true
  | .bool a, .bool b => a == b
  | .num a, .num b => a == b
  | .str a, .str b => a == b
  | .arr a, .arr b => beqList a b
  | .obj a, .obj b => beqFields a b
  | _, _ => false
where
  beqList : List Json → List Json → Bool
    | [], [] => true
    | x :: xs, y :: ys => x.beq y && beqList xs ys
    | _, _ => false
  beqFields : List (String × Json) → List (String × Json) → Bool
    | [], [] => true
    | (k, v) :: xs, (k', v') :: ys => k == k' && v.beq v' && beqFields xs ys
    | _, _ => false

instance : BEq Json := ⟨Json.beq⟩

/-- Python truthiness of a JSON value: `None`, `False`, `0`, `""`, `[]` and
`\x7b\x7d` are falsy, everything else is truthy. -/
def Json.truthy : Json → Bool
  | .null => false
  | .bool b => b
  | .num n => n != 0
  | .str s => s != ""
  | .arr elems => !elems.isEmpty
  | .obj fields => !fields.isEmpty

/-- Python `d[k]` on a JSON value: succeeds exactly when the value is an
object carrying the key; any other case raises (`KeyError`/`TypeError`). -/
def Json.get : Json → String → Except Unit Json
  | .obj fields, k =>
    match fields.find? (fun p => p.1 = k) with
    | some p => .ok p.2
    | none => .error ()
  | _, _ => .error ()

/-- Python `d.get(k, default)` on a JSON object; on a non-object the Python
attribute lookup would raise, but every use in the source guards the shape,
so the default is returned only for objects lacking the key. -/
def Json.getD (j : Json) (k : String) (d : Json) : Json :=
  match j with
  | .obj fields =>
    match fields.find? (fun p => p.1 = k) with
    | some p => p.2
    | none => d
  | _ => d

/-- Python `k in j` for a string `k`: key membership for dicts, element
membership for lists, substring test for strings; raises `TypeError`
otherwise. -/
def Json.containsKey (j : Json) (k : String) : Except Unit Bool :=
  match j with
  | .obj fields => .ok (fields.any (fun p => p.1 = k))
  | .arr elems => .ok (elems.any (fun e => e == Json.str k))
  | .str s => .ok ((List.range (s.length + 1)).any
      (fun i => ((s.drop i).take k.length) = k))
  | _ => .error ()

/-- `l` begins with `pat` (helper for the string tests below). -/
def listBeginsWith : List Char → List Char → Bool
  | _, [] => true
  | [], _ :: _ => false
  | x :: xs, y :: ys => x = y && listBeginsWith xs ys

/-- Python `s.startswith(pat)`. -/
def strBegins (s pat : String) : Bool :=
  listBeginsWith s.toList pat.toList

/-- Python `s.endswith(pat)`. -/
def strEnds (s pat : String) : Bool :=
  listBeginsWith s.toList.reverse pat.toList.reverse

/-! ## `auth.py` -/

/-- `getAccessToken(jwt_path)` from `auth.py`.  The file system is passed in
as the already-parsed content of the file at `jwt_path`: `none` models a
missing file (`os.path.exists` false); `json.load` is assumed to succeed
(a parse failure would propagate a `ValueError`, which no claim concerns).
The result `.ok none` is the Python `return None`; `.error ()` is a raised
`TypeError` (e.g. indexing a non-dict after a membership hit). -/
def getAccessToken (file : Option Json) : Except Unit (Option Json) :=
  match file with
  | none => .ok none
  | some jwt_json => do
    let has ← jwt_json.containsKey "access_token"
    if has then do
      let v ← jwt_json.get "access_token"
      if v.truthy then return (some v) else return none
    else
      return none

/-! ## `model_discovery.py` -/

/-- Filter over an `Except`-valued predicate: `list(filter(f, xs))` where a
call of `f` can raise. -/
def exceptFilter (p : α → Except Unit Bool) : List α → Except Unit (List α)
  | [] => .ok []
  | x :: xs => do
    let b ← p x
    let rest ← exceptFilter p xs
    if b then return (x :: rest) else return rest

/-- `model["endpoint"].endswith("/embeddings")`, the `embeddingModelFilter`
of `model_discovery.py`; raises when the entry has no string endpoint. -/
def embeddingModelFilter (model : Json) : Except Unit Bool := do
  let ep ← model.get "endpoint"
  match ep with
  | .str s => return (strEnds s "/embeddings")
  | _ => .error ()

/-- `getCopilotModels(config_dir, model_type)` from `model_discovery.py`.
The file system is the oracle `fs`; `fs config_dir = none` models a
non-existent file, `some cfg` the parsed JSON content (`json.load` assumed
to succeed).  `.error ()` is a raised exception (the `ValueError` for an
unknown model type, or a `KeyError`/`AttributeError` while filtering). -/
def getCopilotModels (fs : String → Option Json) (config_dir : String)
    (model_type : String) : Except Unit (List Json × List Json) :=
  if model_type ≠ "inference" ∧ model_type ≠ "embedding" then .error ()
  else if config_dir = "" then .ok ([], [])
  else
    match fs config_dir with
    | none => .ok ([], [])
    | some copilot_config => do
      let base ←
        if copilot_config.truthy then do
          let has ← copilot_config.containsKey "aiInferenceModels"
          if has then do
            let v ← copilot_config.get "aiInferenceModels"
            if v.truthy then pure v else pure (Json.arr [])
          else pure (Json.arr [])
        else pure (Json.arr [])
      match base with
      | Json.arr ms => do
        let selected ←
          if model_type = "inference" then
            exceptFilter (fun m => do
              let b ← embeddingModelFilter m
              return !b) ms
          else
            exceptFilter embeddingModelFilter ms
        let names ← selected.mapM (fun m => m.get "name")
        return (selected, names)
      | _ => .error ()

/-- Total projection used only to state theorems: the string endpoint of a
configured model entry (defaulting to `""`). -/
def entryEndpoint (e : Json) : String :=
  match e.get "endpoint" with
  | .ok (Json.str s) => s
  | _ => ""

/-- Total projection used only to state theorems: the `"name"` field of a
configured model entry (defaulting to `null`). -/
def entryName (e : Json) : Json :=
  match e.get "name" with
  | .ok v => v
  | _ => .null

/-! ## `jupyter_ai/handlers.py` — chat message model

`models.py` itself is not part of the tree; the message classes are taken
from the import list of `handlers.py` and the fields that `handlers.py`
reads (`type`, `id`, `body`, `complete`, `stream_complete`, `content`).
Each class is a distinct constructor. -/

/-- An entry of the shared chat history (`HumanChatMessage`,
`AgentChatMessage` or `AgentStreamMessage`). -/
inductive ChatMessage where
  | human (id : String) (time : Int) (body : String) : ChatMessage
  | agent (id : String) (time : Int) (body : String) : ChatMessage
  | agentStream (id : String) (time : Int) (body : String) (complete : Bool) : ChatMessage
deriving DecidableEq, Repr

/-- The `type` discriminator field of a chat message. -/
def ChatMessage.type : ChatMessage → String
  | .human .. => "human"
  | .agent .. => "agent"
  | .agentStream .. => "agent-stream"

/-- The `id` field of a chat message. -/
def ChatMessage.id : ChatMessage → String
  | .human i .. => i
  | .agent i .. => i
  | .agentStream i .. => i

/-- A `PendingMessage` as stored in `settings["pending_messages"]`. -/
structure PendingMessage where
  id : String
  body : String
deriving DecidableEq, Repr

/-- The union of message types a `RootChatHandler` can broadcast (the
`Message` union imported by `handlers.py`). -/
inductive Message where
  | human (id : String) (time : Int) (body : String) : Message
  | agent (id : String) (time : Int) (body : String) : Message
  | agentStream (id : String) (time : Int) (body : String) (complete : Bool) : Message
  | agentStreamChunk (id : String) (content : String) (stream_complete : Bool) : Message
  | pending (id : String) (body : String) : Message
  | closePending (id : String) : Message
  | connection (client_id : String) : Message
deriving DecidableEq, Repr

/-- The shared state touched by `RootChatHandler.broadcast_message`: the
connected clients (each with the list of messages written to its websocket
so far), the shared chat history and the pending-message list. -/
structure ChatState where
  clients : List (String × List Message)
  history : List ChatMessage
  pending : List PendingMessage
deriving DecidableEq, Repr

/-- The match test on a history entry performed for an
`AgentStreamChunkMessage` (`handlers.py` line 226-229):
`history_message.type == "agent-stream" and history_message.id == chunk.id`. -/
def chunkMatches (m : ChatMessage) (chunkId : String) : Bool :=
  m.type == "agent-stream" && m.id == chunkId

/-- The in-place update applied to the matched `AgentStreamMessage`:
`stream_message.body += chunk.content; stream_message.complete =
chunk.stream_complete`. -/
def ChatMessage.applyChunkTo (m : ChatMessage) (content : String)
    (stream_complete : Bool) : ChatMessage :=
  match m with
  | .agentStream i t b _ => .agentStream i t (b ++ content) stream_complete
  | other => other

/-- The loop `for history_message in self.chat_history[::-1]` of
`broadcast_message`, acting on the reversed history: update the first
matching entry and stop (`break`). -/
def updateChunkRev (chunkId content : String) (stream_complete : Bool) :
    List ChatMessage → List ChatMessage
  | [] => []
  | m :: rest =>
    if chunkMatches m chunkId then
      m.applyChunkTo content stream_complete :: rest
    else
      m :: updateChunkRev chunkId content stream_complete rest

/-- Effect of an `AgentStreamChunkMessage` on the chat history: searching
backwards from the end of the list, the first matching entry is updated in
place. -/
def applyChunk (history : List ChatMessage) (chunkId content : String)
    (stream_complete : Bool) : List ChatMessage :=
  (updateChunkRev chunkId content stream_complete history.reverse).reverse

/-- `RootChatHandler.broadcast_message` (`handlers.py` lines 201-239):
write the message to every connected client, then update the shared state
according to the message type. -/
def broadcast_message (st : ChatState) (message : Message) : ChatState :=
  let st1 : ChatState :=
    { st with clients := st.clients.map (fun c => (c.1, c.2 ++ [message])) }
  match message with
  | .human i t b => { st1 with history := st1.history ++ [.human i t b] }
  | .agent i t b => { st1 with history := st1.history ++ [.agent i t b] }
  | .agentStream i t b c =>
      { st1 with history := st1.history ++ [.agentStream i t b c] }
  | .agentStreamChunk i content sc =>
      { st1 with history := applyChunk st1.history i content sc }
  | .pending i b => { st1 with pending := st1.pending ++ [⟨i, b⟩] }
  | .closePending i =>
      { st1 with pending := st1.pending.filter (fun m => m.id ≠ i) }
  | .connection _ => st1

/-! ## `jupyter_ai/handlers.py` — message routing -/

/-- Python whitespace, as used by `str.split(None, ...)`: the characters
`str.isspace` accepts — the ASCII whitespace and separator controls
`\t \n \x0b \x0c \r \x1c-\x1f` and space, plus NEL, NBSP and the Unicode
space separators. -/
def pyIsSpace (c : Char) : Bool :=
  c = ' ' || c = '\t' || c = '\n' || c = '\r' || c = '\x0b' || c = '\x0c' ||
  c = '\x1c' || c = '\x1d' || c = '\x1e' || c = '\x1f' ||
  c = '\x85' || c = '\xa0' || c = '\u1680' ||
  (('\u2000' : Char) ≤ c && c ≤ ('\u200a' : Char)) ||
  c = '\u2028' || c = '\u2029' || c = '\u202f' || c = '\u205f' || c = '\u3000'

/-- `message.body.split(None, 1)[0]`: the first whitespace-delimited token
of the body.  `none` models the `IndexError` raised when the body has no
non-whitespace character (`split` returns an empty list). -/
def firstToken (body : String) : Option String :=
  let t := (body.toList.dropWhile pyIsSpace).takeWhile (fun c => !pyIsSpace c)
  if t.isEmpty then none else some ⟨t⟩

/-- `RootChatHandler._route` (`handlers.py` lines 269-289), reduced to the
key of the chat handler the message is dispatched to.  `handlers` is the key
set of `self.chat_handlers`; `none` models an uncaught exception (the
`KeyError` on a missing `"default"` key, or the `IndexError` from
`split(None, 1)[0]` on an all-whitespace body), in which case no handler
receives the message. -/
def route (handlers : List String) (body : String) : Option String :=
  if !handlers.contains "default" then none
  else
    match firstToken body with
    | none => none
    | some maybe_command =>
      let is_command := strBegins body "/" && handlers.contains maybe_command
        && maybe_command != "default"
      some (if is_command then maybe_command else "default")

/-! ## `jupyter_ai/handlers.py` — connection open/close -/

/-- Python `d[k] = v` on a dict modelled as a key-unique association list:
replace the value if the key is present, else append the new entry. -/
def dictSet (d : List (String × α)) (k : String) (v : α) : List (String × α) :=
  if d.any (fun p => p.1 = k) then
    d.map (fun p => if p.1 = k then (k, v) else p)
  else
    d ++ [(k, v)]

/-- Python `d.pop(k, None)` on a dict modelled as a key-unique association
list: remove the entry if present, otherwise leave the dict unchanged. -/
def dictPop (d : List (String × α)) (k : String) : List (String × α) :=
  d.filter (fun p => p.1 ≠ k)

/-- The key list of an association-list dict. -/
def dictKeys (d : List (String × α)) : List String :=
  d.map (fun p => p.1)

/-- The two settings maps kept in sync by `open` and `on_close`:
`settings["jai_root_chat_handlers"]` (client id → handler) and
`settings["chat_clients"]` (client id → `ChatClient`). -/
structure ConnState (α β : Type) where
  root_chat_handlers : List (String × α)
  chat_clients : List (String × β)

/-- `RootChatHandler.open` (`handlers.py` lines 179-198): insert the freshly
generated client id into both maps, then write the `ConnectionMessage`
carrying that id.  The generated id and the per-connection objects are
parameters. -/
def open_conn (st : ConnState α β) (client_id : String) (handler : α)
    (chat_client : β) : ConnState α β × Message :=
  ({ root_chat_handlers := dictSet st.root_chat_handlers client_id handler,
     chat_clients := dictSet st.chat_clients client_id chat_client },
   .connection client_id)

/-- `RootChatHandler.on_close` (`handlers.py` lines 291-298): pop the client
id from both maps, with a default so an absent id is a no-op. -/
def on_close (st : ConnState α β) (client_id : String) : ConnState α β :=
  { root_chat_handlers := dictPop st.root_chat_handlers client_id,
    chat_clients := dictPop st.chat_clients client_id }

/-! ## `cloudera_ai_inference_provider.py` -/

/-- A `ListProvidersEntry` restricted to the fields that
`_filter_blocked_models` reads: the provider id and the three model lists
(each `Optional` in the pydantic model; `provider.models or []` turns a
missing list into `[]`). -/
structure ListProvidersEntry where
  id : String
  models : Option (List String)
  chat_models : Option (List String)
  completion_models : Option (List String)
deriving DecidableEq, Repr

/-- The inner `filter_predicate` (lines 332-337): with `model_id =
provider.id + ":" + local_model_id`, test against the blocklist when
`self.blocked_models` is truthy (a non-empty list), else against the
allowlist.  `none` models the `TypeError` raised by `model_id in None` when
`allowed_models` is `None`. -/
def filter_predicate (blocked_models allowed_models : Option (List String))
    (provider_id local_model_id : String) : Option Bool :=
  let model_id := provider_id ++ ":" ++ local_model_id
  match blocked_models with
  | some (b :: bs) => some (!(b :: bs).contains model_id)
  | _ =>
    match allowed_models with
    | some al => some (al.contains model_id)
    | none => none

/-- `list(filter(p, xs))` for a predicate that can raise. -/
def filterOpt (p : α → Option Bool) : List α → Option (List α)
  | [] => some []
  | x :: xs => do
    let b ← p x
    let rest ← filterOpt p xs
    if b then return (x :: rest) else return rest

/-- The per-provider mutation of the loop in lines 340-347: replace the
three model lists by their filtered versions. -/
def filterEntry (blocked_models allowed_models : Option (List String))
    (e : ListProvidersEntry) : Option ListProvidersEntry := do
  let ms ← filterOpt (filter_predicate blocked_models allowed_models e.id)
      (e.models.getD [])
  let cs ← filterOpt (filter_predicate blocked_models allowed_models e.id)
      (e.chat_models.getD [])
  let ps ← filterOpt (filter_predicate blocked_models allowed_models e.id)
      (e.completion_models.getD [])
  return { e with
           models := some ms
           chat_models := some cs
           completion_models := some ps }

/-- `ProviderHandler._filter_blocked_models` (lines 323-350).  `none` models
a raised `TypeError`; the final lazy `filter` object is identified with the
list it yields. -/
def filter_blocked_models (blocked_models allowed_models : Option (List String))
    (providers : List ListProvidersEntry) : Option (List ListProvidersEntry) :=
  if blocked_models = none ∧ allowed_models = none then some providers
  else do
    let ps ← providers.mapM (filterEntry blocked_models allowed_models)
    return ps.filter (fun p => (p.models.getD []).length > 0)

/-- Spec-side keep-test for a model id, used only to state the amended
claim: not blocked when the blocklist is non-empty, else allowed. -/
def keepModel (blocked_models allowed_models : Option (List String))
    (provider_id local_model_id : String) : Bool :=
  let model_id := provider_id ++ ":" ++ local_model_id
  match blocked_models with
  | some (b :: bs) => !(b :: bs).contains model_id
  | _ => (allowed_models.getD []).contains model_id

/-! ## `cloudera_ai_embedding_provider.py` -/

/-- Key membership of a JSON object (`key in embedding_data` for a dict),
false for non-objects. -/
def Json.hasKey (j : Json) (k : String) : Bool :=
  match j with
  | .obj fields => fields.any (fun p => p.1 = k)
  | _ => false

/-- Whether an entry of the response `data` list is taken as an embedding:
`embedding_data.get("object", "") == "embedding"` (line 113). -/
def isEmbeddingEntry (e : Json) : Bool :=
  e.getD "object" (.str "") == Json.str "embedding"

/-- The `for embedding_data in response_data` loop of
`_extract_embedding_from_api_response` (lines 112-136), over the running
`embeddings` list and the `expected_indices` set (a list of distinct ints).
`.error ()` is a raised `RuntimeError` (missing key, unexpected or repeated
index, non-integer index) or `AttributeError` (non-dict entry). -/
def extractLoop : List Json → List Json → List Int →
    Except Unit (List Json × List Int)
  | [], embeddings, expected => .ok (embeddings, expected)
  | e :: rest, embeddings, expected =>
    match e with
    | .obj _ =>
      if !isEmbeddingEntry e then extractLoop rest embeddings expected
      else if !(e.hasKey "index" && e.hasKey "embedding") then .error ()
      else
        match e.getD "index" .null with
        | .num index =>
          if index ∈ expected then
            extractLoop rest
              (embeddings.set index.toNat (e.getD "embedding" .null))
              (expected.erase index)
          else .error ()
        | _ => .error ()
    | _ => .error ()

theorem filterOpt_eq_some (p : α → Option Bool) (q : α → Bool)
    (l : List α) (h : ∀ x ∈ l, p x = some (q x)) :
    filterOpt p l = some (l.filter q) := by
  induction l with
  | nil => rfl
  | cons x xs ih =>
    have hx := h x (List.mem_cons_self x xs)
    have ihs := ih (fun y hy => h y (List.mem_cons_of_mem x hy))
    simp only [filterOpt, hx, ihs, Option.bind_some, List.filter_cons]
    cases hq : q x <;> simp [hq, Option.bind]

theorem mapM_option_eq_some (f : α → Option β) (g : α → β)
    (l : List α) (h : ∀ x ∈ l, f x = some (g x)) :
    l.mapM f = some (l.map g) := by
  induction l with
  | nil => rfl
  | cons x xs ih =>
    have hx := h x (List.mem_cons_self x xs)
    have ihs := ih (fun y hy => h y (List.mem_cons_of_mem x hy))
    rw [List.mapM_cons, hx, ihs]
    rfl

theorem exceptFilter_eq_ok (p : α → Except Unit Bool) (q : α → Bool)
    (l : List α) (h : ∀ x ∈ l, p x = .ok (q x)) :
    exceptFilter p l = .ok (l.filter q) := by
  induction l with
  | nil => rfl
  | cons x xs ih =>
    have hx := h x (List.mem_cons_self x xs)
    have ihs := ih (fun y hy => h y (List.mem_cons_of_mem x hy))
    simp only [exceptFilter, hx, ihs, List.filter_cons]
    cases hq : q x <;> rfl

theorem mapM_except_eq_ok (f : α → Except Unit β) (g : α → β)
    (l : List α) (h : ∀ x ∈ l, f x = .ok (g x)) :
    l.mapM f = .ok (l.map g) := by
  induction l with
  | nil => rfl
  | cons x xs ih =>
    have hx := h x (List.mem_cons_self x xs)
    have ihs := ih (fun y hy => h y (List.mem_cons_of_mem x hy))
    rw [List.mapM_cons, hx, ihs]
    rfl

theorem exceptOkBind (a : α) (f : α → Except ε β) :
    (Except.ok a : Except ε α) >>= f = f a := rfl

theorem exceptErrorBind (e : ε) (f : α → Except ε β) :
    (Except.error e : Except ε α) >>= f = Except.error e := rfl

theorem optionSomeBind (a : α) (f : α → Option β) :
    (some a : Option α) >>= f = f a := rfl

theorem optionNoneBind (f : α → Option β) :
    (none : Option α) >>= f = none := rfl

/-! ## Claim C7 — `getAccessToken` -/

/-- C7: `getAccessToken(jwt_path)` returns the value of the
`"access_token"` field of the JSON document stored at `jwt_path` whenever
the file exists and the field is present with a non-empty (truthy) value,
and returns `None` when the file does not exist or the field is absent or
empty.  (`containsKey ... = .ok true` / `.get ... = .ok v` state presence of
the field, `.ok false` / absence its absence; `v.truthy` is Python
truthiness, i.e. non-emptiness for the string tokens stored there.) -/
theorem getAccessToken_spec (file : Option Json) :
    (file = none → getAccessToken file = .ok none) ∧
    (∀ fields v, file = some (Json.obj fields) →
      (Json.obj fields).containsKey "access_token" = .ok true →
      (Json.obj fields).get "access_token" = .ok v → v.truthy = true →
      getAccessToken file = .ok (some v)) ∧
    (∀ fields v, file = some (Json.obj fields) →
      (Json.obj fields).containsKey "access_token" = .ok true →
      (Json.obj fields).get "access_token" = .ok v → v.truthy = false →
      getAccessToken file = .ok none) ∧
    (∀ fields, file = some (Json.obj fields) →
      (Json.obj fields).containsKey "access_token" = .ok false →
      getAccessToken file = .ok none) := by
  refine ⟨?_, ?_, ?_, ?_⟩
  · rintro rfl; rfl
  · rintro fields v rfl hc hg ht
    simp only [getAccessToken, hc, hg, exceptOkBind, if_true, ht]
    rfl
  · rintro fields v rfl hc hg ht
    simp only [getAccessToken, hc, hg, exceptOkBind, if_true, ht]
    rfl
  · rintro fields rfl hc
    simp only [getAccessToken, hc, exceptOkBind]
    rfl

/-- Witness for C7 at a concrete file content. -/
theorem getAccessToken_spec_witness :
    getAccessToken (some (Json.obj [("access_token", Json.str "tok")])) =
      .ok (some (Json.str "tok")) := by
  exact (getAccessToken_spec
      (some (Json.obj [("access_token", Json.str "tok")]))).2.1
    [("access_token", Json.str "tok")] (Json.str "tok") rfl rfl rfl rfl

/-! ## Claim C10 — `getCopilotModels` -/

/-- C10: `getCopilotModels(config_dir, model_type)` raises `ValueError` for
every `model_type` other than `"inference"`/`"embedding"`; returns
`([], [])` when `config_dir` is empty or names no existing file; and
otherwise partitions the configured `aiInferenceModels` entries by endpoint
suffix (`"embedding"` selects exactly the entries whose endpoint ends with
`"/embeddings"`, `"inference"` exactly the remaining entries), returning the
selected entries together with their `"name"` fields in order. -/
theorem getCopilotModels_spec :
    (∀ (fs : String → Option Json) config_dir model_type,
      model_type ≠ "inference" → model_type ≠ "embedding" →
      getCopilotModels fs config_dir model_type = .error ()) ∧
    (∀ (fs : String → Option Json) model_type,
      (model_type = "inference" ∨ model_type = "embedding") →
      getCopilotModels fs "" model_type = .ok ([], [])) ∧
    (∀ (fs : String → Option Json) config_dir model_type,
      (model_type = "inference" ∨ model_type = "embedding") →
      config_dir ≠ "" → fs config_dir = none →
      getCopilotModels fs config_dir model_type = .ok ([], [])) ∧
    (∀ (fs : String → Option Json) config_dir cfg entries,
      config_dir ≠ "" → fs config_dir = some cfg →
      cfg.truthy = true →
      cfg.containsKey "aiInferenceModels" = .ok true →
      cfg.get "aiInferenceModels" = .ok (Json.arr entries) →
      (∀ e ∈ entries, ∃ s, e.get "endpoint" = .ok (Json.str s)) →
      (∀ e ∈ entries, ∃ nm, e.get "name" = .ok nm) →
      getCopilotModels fs config_dir "embedding" =
        .ok (entries.filter (fun e => strEnds (entryEndpoint e) "/embeddings"),
          (entries.filter
            (fun e => strEnds (entryEndpoint e) "/embeddings")).map entryName) ∧
      getCopilotModels fs config_dir "inference" =
        .ok (entries.filter (fun e => !strEnds (entryEndpoint e) "/embeddings"),
          (entries.filter
            (fun e => !strEnds (entryEndpoint e) "/embeddings")).map entryName)) := by
  have hemb : ∀ (entries : List Json),
      (∀ e ∈ entries, ∃ s, e.get "endpoint" = .ok (Json.str s)) →
      ∀ e ∈ entries,
        embeddingModelFilter e = .ok (strEnds (entryEndpoint e) "/embeddings") := by
    intro entries hend e he
    obtain ⟨s, hs⟩ := hend e he
    simp only [embeddingModelFilter, hs, exceptOkBind, entryEndpoint]
    rfl
  have hnames : ∀ (entries sub : List Json),
      (∀ e ∈ entries, ∃ nm, e.get "name" = .ok nm) →
      sub ⊆ entries →
      List.mapM (fun m => m.get "name") sub = .ok (sub.map entryName) := by
    intro entries sub hname hsub
    apply mapM_except_eq_ok
    intro e he
    obtain ⟨nm, hn⟩ := hname e (hsub he)
    simp only [entryName, hn]
  refine ⟨?_, ?_, ?_, ?_⟩
  · intro fs config_dir model_type h1 h2
    simp only [getCopilotModels, if_pos (And.intro h1 h2)]
  · rintro fs model_type (rfl | rfl) <;> rfl
  · rintro fs config_dir model_type hmt hne hfs
    rcases hmt with rfl | rfl <;>
      · rw [getCopilotModels, if_neg (by simp), if_neg hne, hfs]
  · intro fs config_dir cfg entries hne hfs hc1 hc2 hc3 hend hname
    constructor
    · rw [getCopilotModels, if_neg (by simp), if_neg hne, hfs]
      simp only [hc1, if_true, hc2, exceptOkBind, hc3, if_true]
      cases entries with
      | nil => rfl
      | cons e0 es =>
        simp only [pure_bind]
        rw [if_pos (show (Json.arr (e0 :: es)).truthy = true from rfl)]
        rw [if_neg (show ¬("embedding" = "inference") by decide)]
        rw [exceptFilter_eq_ok embeddingModelFilter
          (fun e => strEnds (entryEndpoint e) "/embeddings") (e0 :: es)
          (hemb (e0 :: es) hend), exceptOkBind]
        rw [hnames (e0 :: es) _ hname
          (fun x hx => List.mem_of_mem_filter hx), exceptOkBind]
        rfl
    · rw [getCopilotModels, if_neg (by simp), if_neg hne, hfs]
      simp only [hc1, if_true, hc2, exceptOkBind, hc3, if_true]
      cases entries with
      | nil => rfl
      | cons e0 es =>
        simp only [pure_bind]
        rw [if_pos (show (Json.arr (e0 :: es)).truthy = true from rfl)]
        rw [exceptFilter_eq_ok
          (fun m => do
            let b ← embeddingModelFilter m
            return !b)
          (fun e => !strEnds (entryEndpoint e) "/embeddings") (e0 :: es)
          (by
            intro e he
            simp only [hemb (e0 :: es) hend e he, exceptOkBind]
            rfl), exceptOkBind]
        rw [hnames (e0 :: es) _ hname
          (fun x hx => List.mem_of_mem_filter hx), exceptOkBind]
        rfl

/-- Witness for C10 on a concrete config: an unknown model type raises, an
empty/missing config dir yields `([], [])`, and a one-entry embedding config
is partitioned as claimed. -/
theorem getCopilotModels_spec_witness :
    getCopilotModels
        (fun d => if d = "cfg" then
          some (Json.obj [("aiInferenceModels", Json.arr
            [Json.obj [("name", Json.str "a"),
              ("endpoint", Json.str "https://h/v1/embeddings")]])])
          else none) "cfg" "bogus" = .error () ∧
    getCopilotModels (fun _ => none) "" "inference" = .ok ([], []) ∧
    getCopilotModels (fun _ => none) "missing" "embedding" = .ok ([], []) ∧
    getCopilotModels
        (fun d => if d = "cfg" then
          some (Json.obj [("aiInferenceModels", Json.arr
            [Json.obj [("name", Json.str "a"),
              ("endpoint", Json.str "https://h/v1/embeddings")]])])
          else none) "cfg" "embedding" =
      .ok ([Json.obj [("name", Json.str "a"),
        ("endpoint", Json.str "https://h/v1/embeddings")]], [Json.str "a"]) := by
  refine ⟨?_, ?_, ?_, ?_⟩
  · exact getCopilotModels_spec.1 _ "cfg" "bogus" (by decide) (by decide)
  · exact getCopilotModels_spec.2.1 _ "inference" (Or.inl rfl)
  · exact getCopilotModels_spec.2.2.1 _ "missing" "embedding" (Or.inr rfl)
      (by decide) rfl
  · have h := (getCopilotModels_spec.2.2.2
      (fun d => if d = "cfg" then
        some (Json.obj [("aiInferenceModels", Json.arr
          [Json.obj [("name", Json.str "a"),
            ("endpoint", Json.str "https://h/v1/embeddings")]])])
        else none) "cfg"
      (Json.obj [("aiInferenceModels", Json.arr
        [Json.obj [("name", Json.str "a"),
          ("endpoint", Json.str "https://h/v1/embeddings")]])])
      [Json.obj [("name", Json.str "a"),
        ("endpoint", Json.str "https://h/v1/embeddings")]]
      (by decide) rfl rfl rfl rfl
      (by
        intro e he
        rcases List.mem_singleton.mp he with rfl
        exact ⟨"https://h/v1/embeddings", rfl⟩)
      (by
        intro e he
        rcases List.mem_singleton.mp he with rfl
        exact ⟨Json.str "a", rfl⟩)).1
    rw [h]
    rfl

/-! ## Claim C5 — `ProviderHandler._filter_blocked_models` (corrected)

The claim reads the `else` branch of `filter_predicate` as a membership test
in `allowed_models` whenever `blocked_models` is empty or `None`.  When
`blocked_models` is the *empty list* while `allowed_models` is `None`, the
outer short-circuit (`blocked is None and allowed is None`) does not fire,
and the predicate evaluates `model_id in None`, raising `TypeError` the
first time it is called — no filtered provider list is returned. -/

/-- Counterexample to C5 as stated: with `blocked_models = []`,
`allowed_models = None` and one provider with one model, the function
raises (`none`) instead of returning a filtered provider list. -/
theorem filter_blocked_models_raises_on_empty_blocklist :
    filter_blocked_models (some []) none
      [⟨"p", some ["m"], none, none⟩] = none := by
  rfl

/-- C5 (amended): `_filter_blocked_models` returns the provider list
unchanged when both `blocked_models` and `allowed_models` are `None`;
otherwise — *provided `blocked_models` is a non-empty list or
`allowed_models` is not `None`* — it keeps in each entry's `models`,
`chat_models` and `completion_models` exactly those local model ids whose
qualified id (`provider.id + ":" + local id`) passes `keepModel` (not
blocked when the blocklist is non-empty, else allowed), and drops every
entry whose filtered `models` list is empty.  (When `blocked_models = []`
and `allowed_models is None`, the membership test against `None` raises
`TypeError` instead, as the counterexample shows.) -/
theorem filter_blocked_models_spec
    (blocked_models allowed_models : Option (List String))
    (providers : List ListProvidersEntry) :
    (blocked_models = none ∧ allowed_models = none →
      filter_blocked_models blocked_models allowed_models providers =
        some providers) ∧
    ((∃ b bs, blocked_models = some (b :: bs)) ∨
      (∃ al, allowed_models = some al) →
      filter_blocked_models blocked_models allowed_models providers =
        some ((providers.map (fun e =>
          { e with
            models := some ((e.models.getD []).filter
              (keepModel blocked_models allowed_models e.id))
            chat_models := some ((e.chat_models.getD []).filter
              (keepModel blocked_models allowed_models e.id))
            completion_models := some ((e.completion_models.getD []).filter
              (keepModel blocked_models allowed_models e.id)) })).filter
          (fun p => (p.models.getD []).length > 0))) := by
  constructor
  · rintro ⟨rfl, rfl⟩
    rfl
  · intro h
    have hpred : ∀ pid mid, filter_predicate blocked_models allowed_models pid mid =
        some (keepModel blocked_models allowed_models pid mid) := by
      intro pid mid
      rcases h with ⟨b, bs, rfl⟩ | ⟨al, rfl⟩
      · rfl
      · cases blocked_models with
        | none => rfl
        | some bl => cases bl with
          | nil => rfl
          | cons b bs => rfl
    have hnn : ¬(blocked_models = none ∧ allowed_models = none) := by
      rintro ⟨rfl, rfl⟩
      rcases h with ⟨b, bs, hb⟩ | ⟨al, ha⟩
      · exact Option.noConfusion hb
      · exact Option.noConfusion ha
    rw [filter_blocked_models, if_neg hnn]
    have hentry : ∀ e, filterEntry blocked_models allowed_models e =
        some { e with
          models := some ((e.models.getD []).filter
            (keepModel blocked_models allowed_models e.id))
          chat_models := some ((e.chat_models.getD []).filter
            (keepModel blocked_models allowed_models e.id))
          completion_models := some ((e.completion_models.getD []).filter
            (keepModel blocked_models allowed_models e.id)) } := by
      intro e
      rw [filterEntry,
        filterOpt_eq_some _ (keepModel blocked_models allowed_models e.id) _
          (fun x _ => hpred e.id x),
        optionSomeBind,
        filterOpt_eq_some _ (keepModel blocked_models allowed_models e.id) _
          (fun x _ => hpred e.id x),
        optionSomeBind,
        filterOpt_eq_some _ (keepModel blocked_models allowed_models e.id) _
          (fun x _ => hpred e.id x),
        optionSomeBind]
      rfl
    rw [mapM_option_eq_some _ _ providers (fun e _ => hentry e), optionSomeBind]
    rfl

/-- Witness for amended C5: both-`None` returns the list unchanged, and a
concrete blocklist keeps exactly the non-blocked qualified ids. -/
theorem filter_blocked_models_spec_witness :
    filter_blocked_models none none [⟨"p", some ["m"], none, none⟩] =
      some [⟨"p", some ["m"], none, none⟩] ∧
    filter_blocked_models (some ["p:m"]) none
      [⟨"p", some ["m", "x"], some ["m"], none⟩,
       ⟨"q", some ["m"], none, none⟩] =
      some [⟨"p", some ["x"], some [], some []⟩,
        ⟨"q", some ["m"], some [], some []⟩] := by
  constructor
  · exact (filter_blocked_models_spec none none
      [⟨"p", some ["m"], none, none⟩]).1 ⟨rfl, rfl⟩
  · have h := (filter_blocked_models_spec (some ["p:m"]) none
      [⟨"p", some ["m", "x"], some ["m"], none⟩,
       ⟨"q", some ["m"], none, none⟩]).2
      (Or.inl ⟨"p:m", [], rfl⟩)
    rw [h]
    rfl

/-! ## Claim C3 — `RootChatHandler._route` (corrected)

`message.body.split(None, 1)[0]` raises `IndexError` on a body with no
non-whitespace character (`split` returns `[]`), so such a message is
dispatched to no handler at all, contradicting the claim's "in every other
case it dispatches the message to chat_handlers['default']". -/

/-- Counterexample to C3 as stated: the empty body is not dispatched to
`chat_handlers["default"]` — the token lookup raises and `_route` aborts. -/
theorem route_empty_body_not_dispatched :
    route ["default"] "" ≠ some "default" := by
  decide

/-- C3 (amended): given that `"default"` is a key of `chat_handlers`, for
every incoming message whose body contains at least one non-whitespace
character (so the token lookup does not raise), `_route` dispatches to
`chat_handlers[c]` — `c` the first whitespace-delimited token — exactly when
the body starts with `"/"`, `c` is a key of `chat_handlers` and `c` is not
`"default"`; otherwise it dispatches to `chat_handlers["default"]`.  A
message whose body is empty or all whitespace is dispatched to no handler:
`split(None, 1)[0]` raises `IndexError`. -/
theorem route_spec (handlers : List String) (body : String)
    (hdef : handlers.contains "default" = true) :
    (∀ tok, firstToken body = some tok →
      route handlers body =
        some (if strBegins body "/" && handlers.contains tok && tok != "default"
          then tok else "default")) ∧
    (firstToken body = none → route handlers body = none) := by
  constructor
  · intro tok htok
    rw [route, hdef, htok]
    rfl
  · intro htok
    rw [route, hdef, htok]
    rfl

/-- Witness for amended C3: `"/fix it"` goes to the `/fix` handler, while a
body consisting of the file-separator control character `\x1c` — whitespace
to `str.split(None, 1)` — is dispatched nowhere. -/
theorem route_spec_witness :
    route ["default", "/fix"] "/fix it" = some "/fix" ∧
    route ["default"] "\x1c" = none := by
  constructor
  · have h := (route_spec ["default", "/fix"] "/fix it" (by decide)).1
      "/fix" (by decide)
    rw [h]
    decide
  · exact (route_spec ["default"] "\x1c" (by decide)).2 (by decide)

theorem dictKeys_dictSet (d : List (String × α)) (k : String) (v : α) :
    dictKeys (dictSet d k v) =
      if d.any (fun p => p.1 = k) then dictKeys d else dictKeys d ++ [k] := by
  unfold dictSet dictKeys
  split
  · rw [List.map_map]
    apply List.map_congr_left
    intro p _
    by_cases h : p.1 = k
    · simp [h]
    · simp [h]
  · simp

theorem dictKeys_dictPop (d : List (String × α)) (k : String) :
    dictKeys (dictPop d k) = (dictKeys d).filter (fun x => x ≠ k) := by
  unfold dictPop dictKeys
  rw [List.filter_map]
  rfl

theorem mem_dictKeys_dictSet (d : List (String × α)) (k : String) (v : α) :
    k ∈ dictKeys (dictSet d k v) := by
  rw [dictKeys_dictSet]
  split
  · next hany =>
    rcases List.any_eq_true.mp hany with ⟨p, hp, he⟩
    exact List.mem_map.mpr ⟨p, hp, of_decide_eq_true he⟩
  · exact List.mem_append_right _ (List.mem_singleton.mpr rfl)

/-! ## Claim C8 — `open`/`on_close` keep the two client maps in sync -/

/-- C8: `root_chat_handlers` and `chat_clients` always have equal key sets:
`open` inserts the same freshly generated client id into both maps before
the `ConnectionMessage` (which carries that id) is written, and `on_close`
pops the id from both maps, a pop of an absent id leaving both maps
unchanged. -/
theorem open_close_keys (st : ConnState α β) (client_id : String)
    (handler : α) (chat_client : β)
    (h : dictKeys st.root_chat_handlers = dictKeys st.chat_clients) :
    (dictKeys ((open_conn st client_id handler chat_client).1).root_chat_handlers =
      dictKeys ((open_conn st client_id handler chat_client).1).chat_clients) ∧
    (client_id ∈
      dictKeys ((open_conn st client_id handler chat_client).1).root_chat_handlers) ∧
    (client_id ∈
      dictKeys ((open_conn st client_id handler chat_client).1).chat_clients) ∧
    ((open_conn st client_id handler chat_client).2 = .connection client_id) ∧
    (dictKeys (on_close st client_id).root_chat_handlers =
      dictKeys (on_close st client_id).chat_clients) ∧
    (client_id ∉ dictKeys st.root_chat_handlers → on_close st client_id = st) := by
  have hmem : ∀ (γ : Type) (d : List (String × γ)),
      (d.any (fun p => p.1 = client_id)) = decide (client_id ∈ dictKeys d) := by
    intro γ d
    rw [Bool.eq_iff_iff]
    simp only [List.any_eq_true, decide_eq_true_eq, dictKeys, List.mem_map]
  have hany : (st.root_chat_handlers.any (fun p => p.1 = client_id)) =
      (st.chat_clients.any (fun p => p.1 = client_id)) := by
    rw [hmem α st.root_chat_handlers, hmem β st.chat_clients, h]
  refine ⟨?_, ?_, ?_, rfl, ?_, ?_⟩
  · show dictKeys (dictSet st.root_chat_handlers client_id handler) =
      dictKeys (dictSet st.chat_clients client_id chat_client)
    rw [dictKeys_dictSet, dictKeys_dictSet, h, hany]
  · exact mem_dictKeys_dictSet _ _ _
  · exact mem_dictKeys_dictSet _ _ _
  · show dictKeys (dictPop st.root_chat_handlers client_id) =
      dictKeys (dictPop st.chat_clients client_id)
    rw [dictKeys_dictPop, dictKeys_dictPop, h]
  · intro hmem
    have hroot : dictPop st.root_chat_handlers client_id = st.root_chat_handlers := by
      apply List.filter_eq_self.mpr
      intro p hp
      exact decide_eq_true (fun he => hmem (List.mem_map.mpr ⟨p, hp, he⟩))
    have hcli : dictPop st.chat_clients client_id = st.chat_clients := by
      apply List.filter_eq_self.mpr
      intro p hp
      refine decide_eq_true (fun he => hmem ?_)
      rw [h]
      exact List.mem_map.mpr ⟨p, hp, he⟩
    cases st with
    | mk root cli =>
      show ConnState.mk (dictPop root client_id) (dictPop cli client_id) = ⟨root, cli⟩
      rw [show dictPop root client_id = root from hroot,
        show dictPop cli client_id = cli from hcli]

/-- Witness for C8 on a concrete two-entry state. -/
theorem open_close_keys_witness :
    dictKeys ((open_conn (⟨[("a", 1)], [("a", true)]⟩ : ConnState Nat Bool)
      "b" 2 false).1).root_chat_handlers =
    dictKeys ((open_conn (⟨[("a", 1)], [("a", true)]⟩ : ConnState Nat Bool)
      "b" 2 false).1).chat_clients ∧
    on_close (⟨[("a", 1)], [("a", true)]⟩ : ConnState Nat Bool) "z" =
      (⟨[("a", 1)], [("a", true)]⟩ : ConnState Nat Bool) := by
  have h := open_close_keys (⟨[("a", 1)], [("a", true)]⟩ : ConnState Nat Bool)
    "b" (2 : Nat) false rfl
  refine ⟨h.1, ?_⟩
  have h2 := open_close_keys (⟨[("a", 1)], [("a", true)]⟩ : ConnState Nat Bool)
    "z" (0 : Nat) false rfl
  exact h2.2.2.2.2.2 (by decide)

theorem updateChunkRev_length (i c : String) (sc : Bool) (l : List ChatMessage) :
    (updateChunkRev i c sc l).length = l.length := by
  induction l with
  | nil => rfl
  | cons m rest ih =>
    rw [updateChunkRev]
    split
    · simp
    · simp [ih]

theorem updateChunkRev_no_match (i c : String) (sc : Bool) (l : List ChatMessage)
    (h : ∀ m ∈ l, chunkMatches m i = false) :
    updateChunkRev i c sc l = l := by
  induction l with
  | nil => rfl
  | cons m rest ih =>
    rw [updateChunkRev, if_neg (by simp [h m (List.mem_cons_self m rest)]),
      ih (fun x hx => h x (List.mem_cons_of_mem m hx))]

theorem updateChunkRev_first_match (i c : String) (sc : Bool)
    (l1 l2 : List ChatMessage) (e : ChatMessage)
    (h1 : ∀ m ∈ l1, chunkMatches m i = false) (he : chunkMatches e i = true) :
    updateChunkRev i c sc (l1 ++ e :: l2) =
      l1 ++ e.applyChunkTo c sc :: l2 := by
  induction l1 with
  | nil => simp [updateChunkRev, he]
  | cons m rest ih =>
    rw [List.cons_append, updateChunkRev,
      if_neg (by simp [h1 m (List.mem_cons_self m rest)]),
      ih (fun x hx => h1 x (List.mem_cons_of_mem m hx)), List.cons_append]

theorem applyChunk_no_match (hist : List ChatMessage) (i c : String) (sc : Bool)
    (h : ∀ m ∈ hist, chunkMatches m i = false) :
    applyChunk hist i c sc = hist := by
  rw [applyChunk,
    updateChunkRev_no_match i c sc hist.reverse
      (fun m hm => h m (List.mem_reverse.mp hm)),
    List.reverse_reverse]

theorem applyChunk_last_match (pre post : List ChatMessage) (e : ChatMessage)
    (i c : String) (sc : Bool)
    (he : chunkMatches e i = true) (hpost : ∀ m ∈ post, chunkMatches m i = false) :
    applyChunk (pre ++ e :: post) i c sc =
      pre ++ e.applyChunkTo c sc :: post := by
  rw [applyChunk, List.reverse_append, List.reverse_cons, List.append_assoc,
    List.singleton_append,
    updateChunkRev_first_match i c sc post.reverse pre.reverse e
      (fun m hm => hpost m (List.mem_reverse.mp hm)) he]
  simp

/-! ## Claim C2 — `broadcast_message` on `AgentStreamChunkMessage` -/

/-- C2: an `AgentStreamChunkMessage` leaves the chat history's length
unchanged; the most recent entry of type `"agent-stream"` with the chunk's
id — i.e. the matching entry followed only by non-matching entries — gets
the chunk's content appended to its body and its `complete` flag set to the
chunk's `stream_complete`, its other fields and every other entry being
unchanged; and when no entry matches, the history is entirely unchanged. -/
theorem broadcast_chunk_spec (st : ChatState) (i content : String) (sc : Bool) :
    ((broadcast_message st (.agentStreamChunk i content sc)).history.length =
      st.history.length) ∧
    ((broadcast_message st (.agentStreamChunk i content sc)).pending =
      st.pending) ∧
    ((∀ m ∈ st.history, chunkMatches m i = false) →
      (broadcast_message st (.agentStreamChunk i content sc)).history =
        st.history) ∧
    (∀ pre e post, st.history = pre ++ e :: post → chunkMatches e i = true →
      (∀ m ∈ post, chunkMatches m i = false) →
      (broadcast_message st (.agentStreamChunk i content sc)).history =
        pre ++ e.applyChunkTo content sc :: post) ∧
    (∀ id t b cmpl,
      ChatMessage.applyChunkTo (.agentStream id t b cmpl) content sc =
        .agentStream id t (b ++ content) sc) := by
  refine ⟨?_, rfl, ?_, ?_, fun id t b cmpl => rfl⟩
  · show (applyChunk st.history i content sc).length = st.history.length
    rw [applyChunk, List.length_reverse, updateChunkRev_length,
      List.length_reverse]
  · intro h
    exact applyChunk_no_match st.history i content sc h
  · intro pre e post hdec he hpost
    show applyChunk st.history i content sc = _
    rw [hdec]
    exact applyChunk_last_match pre post e i content sc he hpost

/-- Witness for C2: a concrete history where the second of two matching
stream entries (the most recent one) is updated. -/
theorem broadcast_chunk_spec_witness :
    (broadcast_message
      ⟨[("c", [])],
       [ChatMessage.agentStream "a" 0 "u" false,
        ChatMessage.human "h" 1 "q",
        ChatMessage.agentStream "a" 2 "x" false,
        ChatMessage.agent "z" 3 "w"], []⟩
      (.agentStreamChunk "a" "y" true)).history =
      [ChatMessage.agentStream "a" 0 "u" false,
       ChatMessage.human "h" 1 "q",
       ChatMessage.agentStream "a" 2 "xy" true,
       ChatMessage.agent "z" 3 "w"] := by
  have h := (broadcast_chunk_spec
    ⟨[("c", [])],
     [ChatMessage.agentStream "a" 0 "u" false,
      ChatMessage.human "h" 1 "q",
      ChatMessage.agentStream "a" 2 "x" false,
      ChatMessage.agent "z" 3 "w"], []⟩ "a" "y" true).2.2.2.1
    [ChatMessage.agentStream "a" 0 "u" false, ChatMessage.human "h" 1 "q"]
    (ChatMessage.agentStream "a" 2 "x" false)
    [ChatMessage.agent "z" 3 "w"]
    rfl (by decide) (by decide)
  rw [h]
  rfl

/-! ## Claim C1 — `broadcast_message` (corrected)

The claim's final clause says *no other message type changes the chat
history or the pending-message list*, but an `AgentStreamChunkMessage` —
which is not among the five types the claim enumerates — mutates the chat
history in place whenever an `agent-stream` entry with the chunk's id is
present, as `broadcast_message` lines 219-233 show. -/

/-- Counterexample to C1 as stated: an `AgentStreamChunkMessage` (a type
other than the five the claim lists) does change the chat history. -/
theorem broadcast_chunk_changes_history :
    (broadcast_message
      ⟨[("c", [])], [ChatMessage.agentStream "a" 0 "x" false], []⟩
      (.agentStreamChunk "a" "y" true)).history ≠
      [ChatMessage.agentStream "a" 0 "x" false] := by
  decide

/-- C1 (amended): every broadcast message is written to every currently
connected client; a `HumanChatMessage`, `AgentChatMessage` or
`AgentStreamMessage` is appended exactly once to the shared chat history; a
`PendingMessage` is appended to the pending list; a `ClosePendingMessage`
replaces the pending list by the pending messages whose id differs from its
id; an `AgentStreamChunkMessage` leaves the pending list and the history's
*length* unchanged but may update a matching `agent-stream` history entry in
place (per C2); and no other message type (`ConnectionMessage`) changes the
chat history or the pending-message list. -/
theorem broadcast_message_spec (st : ChatState) (message : Message) :
    (∀ cid outbox, (cid, outbox) ∈ st.clients →
      (cid, outbox ++ [message]) ∈ (broadcast_message st message).clients) ∧
    ((broadcast_message st message).clients.length = st.clients.length) ∧
    (∀ i t b, message = .human i t b →
      (broadcast_message st message).history = st.history ++ [.human i t b] ∧
      (broadcast_message st message).pending = st.pending) ∧
    (∀ i t b, message = .agent i t b →
      (broadcast_message st message).history = st.history ++ [.agent i t b] ∧
      (broadcast_message st message).pending = st.pending) ∧
    (∀ i t b c, message = .agentStream i t b c →
      (broadcast_message st message).history =
        st.history ++ [.agentStream i t b c] ∧
      (broadcast_message st message).pending = st.pending) ∧
    (∀ i b, message = .pending i b →
      (broadcast_message st message).history = st.history ∧
      (broadcast_message st message).pending = st.pending ++ [⟨i, b⟩]) ∧
    (∀ i, message = .closePending i →
      (broadcast_message st message).history = st.history ∧
      (broadcast_message st message).pending =
        st.pending.filter (fun m => m.id ≠ i)) ∧
    (∀ i c sc, message = .agentStreamChunk i c sc →
      (broadcast_message st message).history.length = st.history.length ∧
      (broadcast_message st message).pending = st.pending) ∧
    (∀ cid, message = .connection cid →
      (broadcast_message st message).history = st.history ∧
      (broadcast_message st message).pending = st.pending) := by
  refine ⟨?_, ?_, ?_, ?_, ?_, ?_, ?_, ?_, ?_⟩
  · intro cid outbox hmem
    have : (broadcast_message st message).clients =
        st.clients.map (fun c => (c.1, c.2 ++ [message])) := by
      cases message <;> rfl
    rw [this]
    exact List.mem_map.mpr ⟨(cid, outbox), hmem, rfl⟩
  · have : (broadcast_message st message).clients =
        st.clients.map (fun c => (c.1, c.2 ++ [message])) := by
      cases message <;> rfl
    rw [this, List.length_map]
  · rintro i t b rfl; exact ⟨rfl, rfl⟩
  · rintro i t b rfl; exact ⟨rfl, rfl⟩
  · rintro i t b c rfl; exact ⟨rfl, rfl⟩
  · rintro i b rfl; exact ⟨rfl, rfl⟩
  · rintro i rfl; exact ⟨rfl, rfl⟩
  · rintro i c sc rfl
    refine ⟨?_, rfl⟩
    show (applyChunk st.history i c sc).length = st.history.length
    rw [applyChunk, List.length_reverse, updateChunkRev_length,
      List.length_reverse]
  · rintro cid rfl; exact ⟨rfl, rfl⟩

/-- Witness for amended C1: a concrete broadcast of a `PendingMessage`
reaches the one connected client and is appended to the pending list. -/
theorem broadcast_message_spec_witness :
    ("c", ([] : List Message) ++ [Message.pending "p" "b"]) ∈
      (broadcast_message ⟨[("c", [])], [], []⟩
        (.pending "p" "b")).clients ∧
    (broadcast_message ⟨[("c", [])], [], []⟩ (.pending "p" "b")).pending =
      [] ++ [⟨"p", "b"⟩] := by
  have h := broadcast_message_spec ⟨[("c", [])], [], []⟩ (.pending "p" "b")
  exact ⟨h.1 "c" [] (by decide), (h.2.2.2.2.2.1 "p" "b" rfl).2⟩

theorem extractLoop_cons_ok (e : Json) (rest : List Json) (embs : List Json)
    (exp : List Int) (out : List Json × List Int)
    (h : extractLoop (e :: rest) embs exp = .ok out) :
    (isEmbeddingEntry e = false ∧ (∃ fs, e = Json.obj fs) ∧
      extractLoop rest embs exp = .ok out) ∨
    (∃ fs i, e = Json.obj fs ∧ isEmbeddingEntry e = true ∧
      (e.hasKey "index" && e.hasKey "embedding") = true ∧
      e.getD "index" Json.null = Json.num i ∧ i ∈ exp ∧
      extractLoop rest (embs.set i.toNat (e.getD "embedding" Json.null))
        (exp.erase i) = .ok out) := by
  cases e with
  | obj fs =>
    rw [extractLoop] at h
    by_cases h1 : isEmbeddingEntry (Json.obj fs) = true
    · simp only [h1, Bool.not_true, Bool.false_eq_true, if_false] at h
      by_cases h2 : ((Json.obj fs).hasKey "index" &&
          (Json.obj fs).hasKey "embedding") = true
      · simp only [h2, Bool.not_true, Bool.false_eq_true, if_false] at h
        split at h
        · split at h
          · next i hv hm =>
            exact Or.inr ⟨fs, i, rfl, h1, h2, hv, hm, h⟩
          · exact absurd h (by simp)
        · exact absurd h (by simp)
      · simp only [eq_false_of_ne_true h2, Bool.not_false, if_true] at h
        exact absurd h (by simp)
    · simp only [eq_false_of_ne_true h1, Bool.not_false, if_true] at h
      exact Or.inl ⟨eq_false_of_ne_true h1, ⟨fs, rfl⟩, h⟩
  | null => simp [extractLoop] at h
  | bool b => simp [extractLoop] at h
  | num n => simp [extractLoop] at h
  | str s => simp [extractLoop] at h
  | arr elems => simp [extractLoop] at h

theorem extractLoop_ok_sub (es : List Json) :
    ∀ (embs : List Json) (exp : List Int) (out : List Json × List Int),
    extractLoop es embs exp = .ok out → ∀ x ∈ out.2, x ∈ exp := by
  induction es with
  | nil =>
    intro embs exp out h x hx
    rw [extractLoop] at h
    cases h
    exact hx
  | cons e rest ih =>
    intro embs exp out h x hx
    rcases extractLoop_cons_ok e rest embs exp out h with
      ⟨_, _, hrec⟩ | ⟨fs, i, rfl, _, _, _, hm, hrec⟩
    · exact ih _ _ _ hrec x hx
    · exact List.mem_of_mem_erase (ih _ _ _ hrec x hx)

